import Mathlib

set_option maxHeartbeats 1000000

/-!
Shallow embedding of the load-test fixture in `itest/loadtest/utils.go` of the
taproot-assets repository: the client factory `getTapClient`, the chain-node
connector `getBitcoinConn`, and the orchestrator `initClients`.

Each Go function is embedded as a Lean function that returns a `RunResult`:
the list of observable events it emits (file reads, dial attempts, liveness
probes, chain-client construction, block mining, cleanup registration), the
cleanups it registered with `t.Cleanup`, and an `Except` value — `error e`
models a fatal abort through `require.NoError` / `require.True`.  External
effects (the filesystem, certificate parsing, macaroon decoding, dialing,
`GetInfo`, `rpcclient.New`, mining) are supplied by a test-double `World`.
-/

/-- Modelled from the spec: per-participant daemon configuration (spec section 6:
host, port, optional TLS certificate file path, optional macaroon file path).
The repository file declaring `TapConfig` is not under `src/`; only the fields
`utils.go` reads are modelled. An empty string models an unset path. -/
structure TapConfig where
  host : String
  port : Nat
  tlsPath : String
  macPath : String
deriving DecidableEq

/-- Modelled from the spec: chain-backend configuration (spec section 6: host,
port, username, password, optional TLS certificate file path). -/
structure BitcoinConfig where
  host : String
  port : Nat
  user : String
  password : String
  tlsPath : String
deriving DecidableEq

/-- Modelled from the spec: one participant entry of the top-level configuration;
`initClients` reads `cfg.Alice.Tapd` and `cfg.Bob.Tapd`. -/
structure UserConfig where
  tapd : TapConfig
deriving DecidableEq

/-- Modelled from the spec: the configuration bundle handed to `initClients`,
with the two participants and the chain backend. -/
structure Config where
  alice : UserConfig
  bob : UserConfig
  bitcoin : BitcoinConfig
deriving DecidableEq

/-- Transport credentials: either the default `credentials.NewTLS(&tls.Config{})`
(empty TLS config, system trust), or `credentials.NewClientTLSFromCert(cp, "")`
where the pool `cp` holds the certificates appended from the PEM bytes read
from `cfg.TLSPath`. -/
inductive Creds where
  | defaultTLS : Creds
  | clientTLSFromCert (pem : String) : Creds
deriving DecidableEq

/-- `lnrpc.MaxGrpcMsgSize`: 200 MiB, per the comment on `maxMsgRecvSize`. -/
def maxGrpcMsgSize : Nat := 200 * 1024 * 1024

/-- A `grpc.DialOption` as assembled by `getTapClient`. -/
inductive DialOption where
  | withTransportCredentials (c : Creds) : DialOption
  | withDefaultCallOptions (maxRecvSize : Nat) : DialOption
  | withPerRPCCredentials (macBytes : String) : DialOption
deriving DecidableEq

/-- The package-level `maxMsgRecvSize = grpc.MaxCallRecvMsgSize(lnrpc.MaxGrpcMsgSize)`. -/
def maxMsgRecvSize : DialOption := .withDefaultCallOptions maxGrpcMsgSize

/-- A dialed gRPC client connection (`grpc.DialContext(ctx, svrAddr, opts...)`):
the composed target address and the dial options it was opened with. -/
structure Conn where
  addr : String
  opts : List DialOption
deriving DecidableEq

/-- Stub from `taprpc.NewTaprootAssetsClient(conn)`. -/
structure TaprootAssetsClient where
  conn : Conn
deriving DecidableEq

/-- Stub from `universerpc.NewUniverseClient(conn)`. -/
structure UniverseClient where
  conn : Conn
deriving DecidableEq

/-- Stub from `mintrpc.NewMintClient(conn)`. -/
structure MintClient where
  conn : Conn
deriving DecidableEq

/-- Stub from `assetwalletrpc.NewAssetWalletClient(conn)`. -/
structure AssetWalletClient where
  conn : Conn
deriving DecidableEq

/-- The `rpcClient` bundle of `utils.go`: the configuration plus the four stub
clients, all bound to the same underlying connection. -/
structure rpcClient where
  cfg : TapConfig
  taprootAssetsClient : TaprootAssetsClient
  universeClient : UniverseClient
  mintClient : MintClient
  assetWalletClient : AssetWalletClient
deriving DecidableEq

/-- The fields of `rpcclient.ConnConfig` that `getBitcoinConn` sets. -/
structure ConnConfig where
  host : String
  user : String
  pass : String
  httpPostMode : Bool
  disableTLS : Bool
  certificates : Option String
deriving DecidableEq

/-- The `rpcclient.Client` handle, as far as the fixture observes it. -/
structure BtcClient where
  connCfg : ConnConfig
deriving DecidableEq

/-- A cleanup registered with `t.Cleanup`: either the channel close registered by
`getTapClient`, or the block-mining cleanup registered by `initClients`. -/
inductive Cleanup where
  | closeConn (conn : Conn) : Cleanup
  | mineBlock : Cleanup
deriving DecidableEq

/-- Observable actions of the fixture, recorded in program order. -/
inductive Ev where
  | readFile (path : String) : Ev
  | dial (addr : String) (opts : List DialOption) : Ev
  | getInfo (addr : String) : Ev
  | newBitcoinClient : Ev
  | mine : Ev
  | registerCleanup (c : Cleanup) : Ev
  | closeConn (addr : String) : Ev
deriving DecidableEq

/-- The distinct fatal-abort sites (`require.NoError` / `require.True` calls). -/
inductive FatalErr where
  | tlsReadErr : FatalErr
  | tlsAppendErr : FatalErr
  | macReadErr : FatalErr
  | macUnmarshalErr : FatalErr
  | macCredErr : FatalErr
  | dialErr : FatalErr
  | getInfoErr : FatalErr
  | btcTlsReadErr : FatalErr
  | rpcNewErr : FatalErr
  | mineErr : FatalErr
deriving DecidableEq

/-- Test double for every external effect the fixture performs.
`readFile p = none` models an `os.ReadFile` error; `pemAppendOk b` is the
result of `cp.AppendCertsFromPEM(b)` (true iff at least one valid certificate
was parsed); `macUnmarshalOk b` is whether `mac.UnmarshalBinary(b)` succeeds;
`macCredOk b` is whether `macaroons.NewMacaroonCredential(mac)` succeeds;
`dialOk a` is whether `grpc.DialContext` on address `a` succeeds; `getInfoOk a`
is whether the `GetInfo` liveness probe on the client at `a` succeeds;
`rpcNewOk` is whether `rpcclient.New` succeeds; `mineOk` is whether the
`itest.MineBlocks` helper succeeds. -/
structure World where
  readFile : String → Option String
  pemAppendOk : String → Bool
  macUnmarshalOk : String → Bool
  macCredOk : String → Bool
  dialOk : String → Bool
  getInfoOk : String → Bool
  rpcNewOk : Bool
  mineOk : Bool

/-- Outcome of running an embedded function: the events it emitted, the
cleanups it registered (in registration order), and its result, where
`error e` is a fatal test abort at site `e`. -/
structure RunResult (α : Type) where
  events : List Ev
  cleanups : List Cleanup
  res : Except FatalErr α

/-- `svrAddr := fmt.Sprintf("%s:%d", cfg.Host, cfg.Port)`. -/
def tapAddr (cfg : TapConfig) : String :=
  cfg.host ++ ":" ++ toString cfg.port

/-- `fmt.Sprintf("%s:%d", cfg.Host, cfg.Port)` for the chain backend. -/
def btcAddr (cfg : BitcoinConfig) : String :=
  cfg.host ++ ":" ++ toString cfg.port

/-- Tail of `getTapClient` from the dial on: emits the dial attempt, fails
fatally on dial error, otherwise wraps the connection in the four stubs,
registers the channel-close cleanup, and returns the bundle.  `evs` is the
trace emitted by the earlier credential-loading phase. -/
def dialAndWrap (w : World) (cfg : TapConfig) (opts : List DialOption)
    (evs : List Ev) : RunResult rpcClient :=
  let svrAddr := tapAddr cfg
  if w.dialOk svrAddr then
    let conn : Conn := ⟨svrAddr, opts⟩
    let client : rpcClient := ⟨cfg, ⟨conn⟩, ⟨conn⟩, ⟨conn⟩, ⟨conn⟩⟩
    ⟨evs ++ [.dial svrAddr opts, .registerCleanup (.closeConn conn)],
     [.closeConn conn], .ok client⟩
  else
    ⟨evs ++ [.dial svrAddr opts], [], .error .dialErr⟩

/-- Middle of `getTapClient`: builds the dial-option array
`[grpc.WithTransportCredentials(creds), grpc.WithDefaultCallOptions(maxMsgRecvSize)]`,
then, when `cfg.MacPath` is set, reads and decodes the macaroon and appends the
per-RPC credential, failing fatally on read, decode, or wrap errors. -/
def getTapClientOpts (w : World) (cfg : TapConfig) (creds : Creds)
    (evs : List Ev) : RunResult rpcClient :=
  let opts : List DialOption := [.withTransportCredentials creds, maxMsgRecvSize]
  if cfg.macPath ≠ "" then
    match w.readFile cfg.macPath with
    | none => ⟨evs ++ [.readFile cfg.macPath], [], .error .macReadErr⟩
    | some macBytes =>
      if w.macUnmarshalOk macBytes then
        if w.macCredOk macBytes then
          dialAndWrap w cfg (opts ++ [.withPerRPCCredentials macBytes])
            (evs ++ [.readFile cfg.macPath])
        else ⟨evs ++ [.readFile cfg.macPath], [], .error .macCredErr⟩
      else ⟨evs ++ [.readFile cfg.macPath], [], .error .macUnmarshalErr⟩
  else
    dialAndWrap w cfg opts evs

/-- `getTapClient` of `utils.go`: starts from the default transport credentials
`credentials.NewTLS(&tls.Config{})`; when `cfg.TLSPath` is set it reads the
certificate file (fatal on read error) and appends it to a fresh certificate
pool (fatal when zero certificates parse), switching the credentials to
`credentials.NewClientTLSFromCert`; then continues with the option assembly,
dial, stub wrapping and cleanup registration. -/
def getTapClient (w : World) (cfg : TapConfig) : RunResult rpcClient :=
  if cfg.tlsPath ≠ "" then
    match w.readFile cfg.tlsPath with
    | none => ⟨[.readFile cfg.tlsPath], [], .error .tlsReadErr⟩
    | some tlsCert =>
      if w.pemAppendOk tlsCert then
        getTapClientOpts w cfg (.clientTLSFromCert tlsCert) [.readFile cfg.tlsPath]
      else ⟨[.readFile cfg.tlsPath], [], .error .tlsAppendErr⟩
  else
    getTapClientOpts w cfg .defaultTLS []

/-- Tail of `getBitcoinConn`: builds the `rpcclient.ConnConfig` with
`HTTPPostMode: true`, the given `DisableTLS` flag and certificate bytes, and
calls `rpcclient.New`, failing fatally on construction error. -/
def newBitcoinClient (w : World) (cfg : BitcoinConfig) (disableTLS : Bool)
    (rpcCert : Option String) (evs : List Ev) : RunResult BtcClient :=
  let connCfg : ConnConfig :=
    ⟨btcAddr cfg, cfg.user, cfg.password, true, disableTLS, rpcCert⟩
  if w.rpcNewOk then
    ⟨evs ++ [.newBitcoinClient], [], .ok ⟨connCfg⟩⟩
  else
    ⟨evs ++ [.newBitcoinClient], [], .error .rpcNewErr⟩

/-- `getBitcoinConn` of `utils.go`: `disableTLS := cfg.TLSPath == ""`; when TLS
is not disabled it reads the certificate file (fatal on read error) and passes
the bytes to the connection config; then constructs the RPC client. -/
def getBitcoinConn (w : World) (cfg : BitcoinConfig) : RunResult BtcClient :=
  let disableTLS := cfg.tlsPath = ""
  if disableTLS then
    newBitcoinClient w cfg true none []
  else
    match w.readFile cfg.tlsPath with
    | none => ⟨[.readFile cfg.tlsPath], [], .error .btcTlsReadErr⟩
    | some rpcCert => newBitcoinClient w cfg false (some rpcCert)
        [.readFile cfg.tlsPath]

/-- `initClients` of `utils.go`: builds the Alice bundle and probes it with
`GetInfo` (fatal on error), then the Bob bundle and its probe, then the
bitcoin client; tests the bitcoin connection by mining one block
(`itest.MineBlocks(t, bitcoinClient, 1, 0)`, modelled from the spec as one
block-producing action since `itest` is not under `src/`), registers a cleanup
that mines one more block, and returns the three handles. -/
def initClients (w : World) (cfg : Config) :
    RunResult (rpcClient × rpcClient × BtcClient) :=
  let ra := getTapClient w cfg.alice.tapd
  match ra.res with
  | .error e => ⟨ra.events, ra.cleanups, .error e⟩
  | .ok alice =>
    let aAddr := alice.taprootAssetsClient.conn.addr
    if w.getInfoOk aAddr then
      let rb := getTapClient w cfg.bob.tapd
      match rb.res with
      | .error e =>
        ⟨ra.events ++ [.getInfo aAddr] ++ rb.events,
         ra.cleanups ++ rb.cleanups, .error e⟩
      | .ok bob =>
        let bAddr := bob.taprootAssetsClient.conn.addr
        if w.getInfoOk bAddr then
          let rc := getBitcoinConn w cfg.bitcoin
          match rc.res with
          | .error e =>
            ⟨ra.events ++ [.getInfo aAddr] ++ rb.events ++ [.getInfo bAddr]
               ++ rc.events,
             ra.cleanups ++ rb.cleanups ++ rc.cleanups, .error e⟩
          | .ok bitcoinClient =>
            if w.mineOk then
              ⟨ra.events ++ [.getInfo aAddr] ++ rb.events ++ [.getInfo bAddr]
                 ++ rc.events ++ [.mine, .registerCleanup .mineBlock],
               ra.cleanups ++ rb.cleanups ++ rc.cleanups ++ [.mineBlock],
               .ok (alice, bob, bitcoinClient)⟩
            else
              ⟨ra.events ++ [.getInfo aAddr] ++ rb.events ++ [.getInfo bAddr]
                 ++ rc.events ++ [.mine],
               ra.cleanups ++ rb.cleanups ++ rc.cleanups, .error .mineErr⟩
        else
          ⟨ra.events ++ [.getInfo aAddr] ++ rb.events ++ [.getInfo bAddr],
           ra.cleanups ++ rb.cleanups, .error .getInfoErr⟩
    else
      ⟨ra.events ++ [.getInfo aAddr], ra.cleanups, .error .getInfoErr⟩

/-- The events a single registered cleanup emits when the test framework runs
it at test end: the `closeConn` cleanup closes its channel, the `mineBlock`
cleanup mines one block (modelled from the spec, as for setup mining). -/
def cleanupEvents : Cleanup → List Ev
  | .closeConn conn => [.closeConn conn.addr]
  | .mineBlock => [.mine]

/-- `t.Cleanup` functions run in last-in-first-out order at test end. -/
def runCleanups (cs : List Cleanup) : List Ev :=
  (cs.reverse.map cleanupEvents).flatten

/-- The fixture's full lifecycle: the setup trace followed by the teardown
trace of the registered cleanups. -/
def fullLifecycleEvents (w : World) (cfg : Config) : List Ev :=
  (initClients w cfg).events ++ runCleanups (initClients w cfg).cleanups

/-- Whether an event is a block-mining action. -/
def isMine : Ev → Bool
  | .readFile _ => false
  | .dial _ _ => false
  | .getInfo _ => false
  | .newBitcoinClient => false
  | .mine => true
  | .registerCleanup _ => false
  | .closeConn _ => false

/-- Whether an event is a dial attempt. -/
def isDial : Ev → Bool
  | .readFile _ => false
  | .dial _ _ => true
  | .getInfo _ => false
  | .newBitcoinClient => false
  | .mine => false
  | .registerCleanup _ => false
  | .closeConn _ => false

/-- Whether an event closes a connection. -/
def isCloseEv : Ev → Bool
  | .readFile _ => false
  | .dial _ _ => false
  | .getInfo _ => false
  | .newBitcoinClient => false
  | .mine => false
  | .registerCleanup _ => false
  | .closeConn _ => true

/-- Number of block-mining actions in a trace. -/
def countMine (evs : List Ev) : Nat := (evs.filter isMine).length

/-- Number of dial attempts in a trace. -/
def countDial (evs : List Ev) : Nat := (evs.filter isDial).length

/-- The connection a successful dial with the given options produces. -/
def mkConn (cfg : TapConfig) (opts : List DialOption) : Conn :=
  ⟨tapAddr cfg, opts⟩

/-- The bundle built over a successful dial with the given options. -/
def mkClient (cfg : TapConfig) (opts : List DialOption) : rpcClient :=
  ⟨cfg, ⟨mkConn cfg opts⟩, ⟨mkConn cfg opts⟩, ⟨mkConn cfg opts⟩, ⟨mkConn cfg opts⟩⟩

/-- The dial options assembled when neither credential path is configured. -/
def defaultOpts : List DialOption :=
  [.withTransportCredentials .defaultTLS, maxMsgRecvSize]

/-- The connection a default-trust participant dial produces. -/
def defaultConn (cfg : TapConfig) : Conn :=
  mkConn cfg defaultOpts

/-- The bundle a default-trust participant build produces. -/
def defaultClient (cfg : TapConfig) : rpcClient :=
  mkClient cfg defaultOpts

/-- A world where every external effect succeeds. -/
def wGood : World :=
  ⟨fun _ => some "PEM", fun _ => true, fun _ => true, fun _ => true,
   fun _ => true, fun _ => true, true, true⟩

/-- A valid default-trust configuration: both participants and the chain
backend have no credential paths set. -/
def cfgGood : Config :=
  ⟨⟨⟨"a", 1, "", ""⟩⟩, ⟨⟨"b", 2, "", ""⟩⟩, ⟨"c", 3, "u", "p", ""⟩⟩

/-- A world whose TLS certificate file exists but parses to zero certificates. -/
def wBadTLS : World :=
  ⟨fun _ => some "JUNK", fun _ => false, fun _ => true, fun _ => true,
   fun _ => true, fun _ => true, true, true⟩

/-- A participant configuration with a TLS path set. -/
def cfgTLSSet : TapConfig := ⟨"a", 1, "t", ""⟩

/-- A world whose macaroon file exists but does not decode. -/
def wBadMac : World :=
  ⟨fun _ => some "JUNK", fun _ => true, fun _ => false, fun _ => true,
   fun _ => true, fun _ => true, true, true⟩

/-- A participant configuration with a macaroon path set. -/
def cfgMacSet : TapConfig := ⟨"a", 1, "", "m"⟩

/-- A world where every file read fails. -/
def wNoFile : World :=
  ⟨fun _ => none, fun _ => true, fun _ => true, fun _ => true,
   fun _ => true, fun _ => true, true, true⟩

/-- A chain-backend configuration with a TLS path set. -/
def cfgBtcTLS : BitcoinConfig := ⟨"c", 3, "u", "p", "t"⟩

/-- A world where every effect succeeds except the liveness probes. -/
def wProbeFail : World :=
  ⟨fun _ => some "PEM", fun _ => true, fun _ => true, fun _ => true,
   fun _ => true, fun _ => false, true, true⟩


/-- The chain-node handle produced for `cfgGood`'s backend (TLS disabled). -/
def btcGood : BtcClient :=
  ⟨⟨btcAddr cfgGood.bitcoin, cfgGood.bitcoin.user, cfgGood.bitcoin.password,
    true, true, none⟩⟩

/-! ### Branch equations for the builders -/

lemma dialAndWrap_spec (w : World) (cfg : TapConfig) (opts : List DialOption)
    (evs : List Ev) :
    dialAndWrap w cfg opts evs =
      if w.dialOk (tapAddr cfg) then
        ⟨evs ++ [.dial (tapAddr cfg) opts,
                 .registerCleanup (.closeConn (mkConn cfg opts))],
         [.closeConn (mkConn cfg opts)], .ok (mkClient cfg opts)⟩
      else ⟨evs ++ [.dial (tapAddr cfg) opts], [], .error .dialErr⟩ := by
  by_cases hd : w.dialOk (tapAddr cfg) <;>
    simp [dialAndWrap, mkConn, mkClient, hd]

lemma getTapClientOpts_mac_empty (w : World) (cfg : TapConfig) (creds : Creds)
    (evs : List Ev) (hm : cfg.macPath = "") :
    getTapClientOpts w cfg creds evs =
      dialAndWrap w cfg [.withTransportCredentials creds, maxMsgRecvSize] evs := by
  simp [getTapClientOpts, hm]

lemma getTapClientOpts_mac_read_err (w : World) (cfg : TapConfig) (creds : Creds)
    (evs : List Ev) (hm : cfg.macPath ≠ "")
    (hr : w.readFile cfg.macPath = none) :
    getTapClientOpts w cfg creds evs =
      ⟨evs ++ [.readFile cfg.macPath], [], .error .macReadErr⟩ := by
  simp [getTapClientOpts, hm, hr]

lemma getTapClientOpts_mac_unmarshal_err (w : World) (cfg : TapConfig)
    (creds : Creds) (evs : List Ev) (bytes : String) (hm : cfg.macPath ≠ "")
    (hr : w.readFile cfg.macPath = some bytes)
    (hu : w.macUnmarshalOk bytes = false) :
    getTapClientOpts w cfg creds evs =
      ⟨evs ++ [.readFile cfg.macPath], [], .error .macUnmarshalErr⟩ := by
  simp [getTapClientOpts, hm, hr, hu]

lemma getTapClientOpts_mac_cred_err (w : World) (cfg : TapConfig)
    (creds : Creds) (evs : List Ev) (bytes : String) (hm : cfg.macPath ≠ "")
    (hr : w.readFile cfg.macPath = some bytes)
    (hu : w.macUnmarshalOk bytes = true) (hc : w.macCredOk bytes = false) :
    getTapClientOpts w cfg creds evs =
      ⟨evs ++ [.readFile cfg.macPath], [], .error .macCredErr⟩ := by
  simp [getTapClientOpts, hm, hr, hu, hc]

lemma getTapClientOpts_mac_ok (w : World) (cfg : TapConfig) (creds : Creds)
    (evs : List Ev) (bytes : String) (hm : cfg.macPath ≠ "")
    (hr : w.readFile cfg.macPath = some bytes)
    (hu : w.macUnmarshalOk bytes = true) (hc : w.macCredOk bytes = true) :
    getTapClientOpts w cfg creds evs =
      dialAndWrap w cfg
        [.withTransportCredentials creds, maxMsgRecvSize,
         .withPerRPCCredentials bytes]
        (evs ++ [.readFile cfg.macPath]) := by
  simp [getTapClientOpts, hm, hr, hu, hc]

lemma getTapClient_tls_empty (w : World) (cfg : TapConfig)
    (ht : cfg.tlsPath = "") :
    getTapClient w cfg = getTapClientOpts w cfg .defaultTLS [] := by
  simp [getTapClient, ht]

lemma getTapClient_tls_read_err (w : World) (cfg : TapConfig)
    (ht : cfg.tlsPath ≠ "") (hr : w.readFile cfg.tlsPath = none) :
    getTapClient w cfg = ⟨[.readFile cfg.tlsPath], [], .error .tlsReadErr⟩ := by
  simp [getTapClient, ht, hr]

lemma getTapClient_tls_append_err (w : World) (cfg : TapConfig) (cert : String)
    (ht : cfg.tlsPath ≠ "") (hr : w.readFile cfg.tlsPath = some cert)
    (hp : w.pemAppendOk cert = false) :
    getTapClient w cfg = ⟨[.readFile cfg.tlsPath], [], .error .tlsAppendErr⟩ := by
  simp [getTapClient, ht, hr, hp]

lemma getTapClient_tls_ok (w : World) (cfg : TapConfig) (cert : String)
    (ht : cfg.tlsPath ≠ "") (hr : w.readFile cfg.tlsPath = some cert)
    (hp : w.pemAppendOk cert = true) :
    getTapClient w cfg =
      getTapClientOpts w cfg (.clientTLSFromCert cert) [.readFile cfg.tlsPath] := by
  simp [getTapClient, ht, hr, hp]

/-! ### Shape lemmas for successful builds -/

lemma dialAndWrap_ok_spec (w : World) (cfg : TapConfig) (opts : List DialOption)
    (evs : List Ev) (c : rpcClient)
    (h : (dialAndWrap w cfg opts evs).res = .ok c) :
    c = mkClient cfg opts ∧
    dialAndWrap w cfg opts evs =
      ⟨evs ++ [.dial (tapAddr cfg) opts,
               .registerCleanup (.closeConn (mkConn cfg opts))],
       [.closeConn (mkConn cfg opts)], .ok (mkClient cfg opts)⟩ := by
  rw [dialAndWrap_spec] at h ⊢
  by_cases hd : w.dialOk (tapAddr cfg)
  · simp only [hd, if_true] at h ⊢
    simp only [Except.ok.injEq] at h
    exact ⟨h.symm, trivial⟩
  · simp [hd] at h

lemma getTapClientOpts_ok_spec (w : World) (cfg : TapConfig) (creds : Creds)
    (evs : List Ev) (c : rpcClient)
    (hevs : ∀ e ∈ evs, ∃ p, e = Ev.readFile p)
    (h : (getTapClientOpts w cfg creds evs).res = .ok c) :
    ∃ pre opts, (∀ e ∈ pre, ∃ p, e = Ev.readFile p) ∧
      c = mkClient cfg opts ∧
      getTapClientOpts w cfg creds evs =
        ⟨pre ++ [.dial (tapAddr cfg) opts,
                 .registerCleanup (.closeConn (mkConn cfg opts))],
         [.closeConn (mkConn cfg opts)], .ok c⟩ := by
  by_cases hm : cfg.macPath = ""
  · rw [getTapClientOpts_mac_empty w cfg creds evs hm] at h ⊢
    obtain ⟨hceq, heq⟩ := dialAndWrap_ok_spec w cfg _ evs c h
    subst hceq
    exact ⟨evs, _, hevs, rfl, by rw [heq]⟩
  · rcases hr : w.readFile cfg.macPath with _ | bytes
    · rw [getTapClientOpts_mac_read_err w cfg creds evs hm hr] at h
      simp at h
    · cases hu : w.macUnmarshalOk bytes
      · rw [getTapClientOpts_mac_unmarshal_err w cfg creds evs bytes hm hr hu] at h
        simp at h
      · cases hmc : w.macCredOk bytes
        · rw [getTapClientOpts_mac_cred_err w cfg creds evs bytes hm hr hu hmc] at h
          simp at h
        · rw [getTapClientOpts_mac_ok w cfg creds evs bytes hm hr hu hmc] at h ⊢
          obtain ⟨hceq, heq⟩ := dialAndWrap_ok_spec w cfg _ _ c h
          subst hceq
          refine ⟨evs ++ [Ev.readFile cfg.macPath], _, ?_, rfl, by rw [heq]⟩
          intro e he
          rcases List.mem_append.mp he with h1 | h2
          · exact hevs e h1
          · simp at h2
            exact ⟨cfg.macPath, h2⟩

lemma getTapClient_ok_spec (w : World) (cfg : TapConfig) (c : rpcClient)
    (h : (getTapClient w cfg).res = .ok c) :
    ∃ pre opts, (∀ e ∈ pre, ∃ p, e = Ev.readFile p) ∧
      c = mkClient cfg opts ∧
      getTapClient w cfg =
        ⟨pre ++ [.dial (tapAddr cfg) opts,
                 .registerCleanup (.closeConn (mkConn cfg opts))],
         [.closeConn (mkConn cfg opts)], .ok c⟩ := by
  by_cases ht : cfg.tlsPath = ""
  · rw [getTapClient_tls_empty w cfg ht] at h ⊢
    exact getTapClientOpts_ok_spec w cfg _ [] c (by simp) h
  · rcases hr : w.readFile cfg.tlsPath with _ | cert
    · rw [getTapClient_tls_read_err w cfg ht hr] at h
      simp at h
    · cases hp : w.pemAppendOk cert
      · rw [getTapClient_tls_append_err w cfg cert ht hr hp] at h
        simp at h
      · rw [getTapClient_tls_ok w cfg cert ht hr hp] at h ⊢
        exact getTapClientOpts_ok_spec w cfg _ _ c (by simp) h

/-! ### Branch equations for the chain-node connector -/

lemma getBitcoinConn_noTLS (w : World) (cfg : BitcoinConfig)
    (h1 : cfg.tlsPath = "") :
    getBitcoinConn w cfg =
      ⟨[.newBitcoinClient], [],
       if w.rpcNewOk then
         .ok ⟨⟨btcAddr cfg, cfg.user, cfg.password, true, true, none⟩⟩
       else .error .rpcNewErr⟩ := by
  by_cases hw : w.rpcNewOk <;> simp [getBitcoinConn, newBitcoinClient, h1, hw]

lemma getBitcoinConn_tls_read_err (w : World) (cfg : BitcoinConfig)
    (h1 : cfg.tlsPath ≠ "") (hr : w.readFile cfg.tlsPath = none) :
    getBitcoinConn w cfg =
      ⟨[.readFile cfg.tlsPath], [], .error .btcTlsReadErr⟩ := by
  simp [getBitcoinConn, newBitcoinClient, h1, hr]

lemma getBitcoinConn_tls_ok (w : World) (cfg : BitcoinConfig) (cert : String)
    (h1 : cfg.tlsPath ≠ "") (hr : w.readFile cfg.tlsPath = some cert) :
    getBitcoinConn w cfg =
      ⟨[.readFile cfg.tlsPath, .newBitcoinClient], [],
       if w.rpcNewOk then
         .ok ⟨⟨btcAddr cfg, cfg.user, cfg.password, true, false, some cert⟩⟩
       else .error .rpcNewErr⟩ := by
  by_cases hw : w.rpcNewOk <;>
    simp [getBitcoinConn, newBitcoinClient, h1, hr, hw]

lemma getBitcoinConn_cleanups (w : World) (cfg : BitcoinConfig) :
    (getBitcoinConn w cfg).cleanups = [] := by
  by_cases h1 : cfg.tlsPath = ""
  · rw [getBitcoinConn_noTLS w cfg h1]
  · rcases hr : w.readFile cfg.tlsPath with _ | cert
    · rw [getBitcoinConn_tls_read_err w cfg h1 hr]
    · rw [getBitcoinConn_tls_ok w cfg cert h1 hr]

lemma getTapClient_default_trust (w : World) (cfg : TapConfig)
    (h1 : cfg.tlsPath = "") (h2 : cfg.macPath = "")
    (h3 : w.dialOk (tapAddr cfg) = true) :
    getTapClient w cfg =
      ⟨[.dial (tapAddr cfg) defaultOpts,
        .registerCleanup (.closeConn (defaultConn cfg))],
       [.closeConn (defaultConn cfg)], .ok (defaultClient cfg)⟩ := by
  rw [getTapClient_tls_empty w cfg h1,
      getTapClientOpts_mac_empty w cfg _ [] h2, dialAndWrap_spec]
  simp [h3, defaultOpts, defaultConn, defaultClient]

/-! ### Branch equations for the orchestrator -/

lemma initClients_alice_err (w : World) (cfg : Config) (e : FatalErr)
    (hA : (getTapClient w cfg.alice.tapd).res = .error e) :
    initClients w cfg =
      ⟨(getTapClient w cfg.alice.tapd).events,
       (getTapClient w cfg.alice.tapd).cleanups, .error e⟩ := by
  simp [initClients, hA]

lemma initClients_alice_probe_fail (w : World) (cfg : Config) (a : rpcClient)
    (hA : (getTapClient w cfg.alice.tapd).res = .ok a)
    (hgA : w.getInfoOk a.taprootAssetsClient.conn.addr = false) :
    initClients w cfg =
      ⟨(getTapClient w cfg.alice.tapd).events
         ++ [.getInfo a.taprootAssetsClient.conn.addr],
       (getTapClient w cfg.alice.tapd).cleanups, .error .getInfoErr⟩ := by
  simp [initClients, hA, hgA]

lemma initClients_bob_err (w : World) (cfg : Config) (a : rpcClient)
    (e : FatalErr)
    (hA : (getTapClient w cfg.alice.tapd).res = .ok a)
    (hgA : w.getInfoOk a.taprootAssetsClient.conn.addr = true)
    (hB : (getTapClient w cfg.bob.tapd).res = .error e) :
    initClients w cfg =
      ⟨(getTapClient w cfg.alice.tapd).events
         ++ [.getInfo a.taprootAssetsClient.conn.addr]
         ++ (getTapClient w cfg.bob.tapd).events,
       (getTapClient w cfg.alice.tapd).cleanups
         ++ (getTapClient w cfg.bob.tapd).cleanups, .error e⟩ := by
  simp [initClients, hA, hgA, hB]

lemma initClients_bob_probe_fail (w : World) (cfg : Config) (a b : rpcClient)
    (hA : (getTapClient w cfg.alice.tapd).res = .ok a)
    (hgA : w.getInfoOk a.taprootAssetsClient.conn.addr = true)
    (hB : (getTapClient w cfg.bob.tapd).res = .ok b)
    (hgB : w.getInfoOk b.taprootAssetsClient.conn.addr = false) :
    initClients w cfg =
      ⟨(getTapClient w cfg.alice.tapd).events
         ++ [.getInfo a.taprootAssetsClient.conn.addr]
         ++ (getTapClient w cfg.bob.tapd).events
         ++ [.getInfo b.taprootAssetsClient.conn.addr],
       (getTapClient w cfg.alice.tapd).cleanups
         ++ (getTapClient w cfg.bob.tapd).cleanups, .error .getInfoErr⟩ := by
  simp [initClients, hA, hgA, hB, hgB]

lemma initClients_btc_err (w : World) (cfg : Config) (a b : rpcClient)
    (e : FatalErr)
    (hA : (getTapClient w cfg.alice.tapd).res = .ok a)
    (hgA : w.getInfoOk a.taprootAssetsClient.conn.addr = true)
    (hB : (getTapClient w cfg.bob.tapd).res = .ok b)
    (hgB : w.getInfoOk b.taprootAssetsClient.conn.addr = true)
    (hC : (getBitcoinConn w cfg.bitcoin).res = .error e) :
    initClients w cfg =
      ⟨(getTapClient w cfg.alice.tapd).events
         ++ [.getInfo a.taprootAssetsClient.conn.addr]
         ++ (getTapClient w cfg.bob.tapd).events
         ++ [.getInfo b.taprootAssetsClient.conn.addr]
         ++ (getBitcoinConn w cfg.bitcoin).events,
       (getTapClient w cfg.alice.tapd).cleanups
         ++ (getTapClient w cfg.bob.tapd).cleanups
         ++ (getBitcoinConn w cfg.bitcoin).cleanups, .error e⟩ := by
  simp [initClients, hA, hgA, hB, hgB, hC]

lemma initClients_mine_fail (w : World) (cfg : Config) (a b : rpcClient)
    (btc : BtcClient)
    (hA : (getTapClient w cfg.alice.tapd).res = .ok a)
    (hgA : w.getInfoOk a.taprootAssetsClient.conn.addr = true)
    (hB : (getTapClient w cfg.bob.tapd).res = .ok b)
    (hgB : w.getInfoOk b.taprootAssetsClient.conn.addr = true)
    (hC : (getBitcoinConn w cfg.bitcoin).res = .ok btc)
    (hm : w.mineOk = false) :
    initClients w cfg =
      ⟨(getTapClient w cfg.alice.tapd).events
         ++ [.getInfo a.taprootAssetsClient.conn.addr]
         ++ (getTapClient w cfg.bob.tapd).events
         ++ [.getInfo b.taprootAssetsClient.conn.addr]
         ++ (getBitcoinConn w cfg.bitcoin).events ++ [.mine],
       (getTapClient w cfg.alice.tapd).cleanups
         ++ (getTapClient w cfg.bob.tapd).cleanups
         ++ (getBitcoinConn w cfg.bitcoin).cleanups, .error .mineErr⟩ := by
  simp [initClients, hA, hgA, hB, hgB, hC, hm]

lemma initClients_ok (w : World) (cfg : Config) (a b : rpcClient)
    (btc : BtcClient)
    (hA : (getTapClient w cfg.alice.tapd).res = .ok a)
    (hgA : w.getInfoOk a.taprootAssetsClient.conn.addr = true)
    (hB : (getTapClient w cfg.bob.tapd).res = .ok b)
    (hgB : w.getInfoOk b.taprootAssetsClient.conn.addr = true)
    (hC : (getBitcoinConn w cfg.bitcoin).res = .ok btc)
    (hm : w.mineOk = true) :
    initClients w cfg =
      ⟨(getTapClient w cfg.alice.tapd).events
         ++ [.getInfo a.taprootAssetsClient.conn.addr]
         ++ (getTapClient w cfg.bob.tapd).events
         ++ [.getInfo b.taprootAssetsClient.conn.addr]
         ++ (getBitcoinConn w cfg.bitcoin).events
         ++ [.mine, .registerCleanup .mineBlock],
       (getTapClient w cfg.alice.tapd).cleanups
         ++ (getTapClient w cfg.bob.tapd).cleanups
         ++ (getBitcoinConn w cfg.bitcoin).cleanups ++ [.mineBlock],
       .ok (a, b, btc)⟩ := by
  simp [initClients, hA, hgA, hB, hgB, hC, hm]

lemma initClients_res_ok_inv (w : World) (cfg : Config) (a b : rpcClient)
    (btc : BtcClient)
    (h : (initClients w cfg).res = .ok (a, b, btc)) :
    (getTapClient w cfg.alice.tapd).res = .ok a ∧
    w.getInfoOk a.taprootAssetsClient.conn.addr = true ∧
    (getTapClient w cfg.bob.tapd).res = .ok b ∧
    w.getInfoOk b.taprootAssetsClient.conn.addr = true ∧
    (getBitcoinConn w cfg.bitcoin).res = .ok btc ∧
    w.mineOk = true := by
  rcases hA : (getTapClient w cfg.alice.tapd).res with e | a'
  · rw [initClients_alice_err w cfg e hA] at h
    simp at h
  · cases hgA : w.getInfoOk a'.taprootAssetsClient.conn.addr
    · rw [initClients_alice_probe_fail w cfg a' hA hgA] at h
      simp at h
    · rcases hB : (getTapClient w cfg.bob.tapd).res with e | b'
      · rw [initClients_bob_err w cfg a' e hA hgA hB] at h
        simp at h
      · cases hgB : w.getInfoOk b'.taprootAssetsClient.conn.addr
        · rw [initClients_bob_probe_fail w cfg a' b' hA hgA hB hgB] at h
          simp at h
        · rcases hC : (getBitcoinConn w cfg.bitcoin).res with e | btc'
          · rw [initClients_btc_err w cfg a' b' e hA hgA hB hgB hC] at h
            simp at h
          · cases hm : w.mineOk
            · rw [initClients_mine_fail w cfg a' b' btc' hA hgA hB hgB hC hm] at h
              simp at h
            · rw [initClients_ok w cfg a' b' btc' hA hgA hB hgB hC hm] at h
              simp only [Except.ok.injEq, Prod.mk.injEq] at h
              obtain ⟨h1, h2, h3⟩ := h
              subst h1; subst h2; subst h3
              exact ⟨rfl, hgA, rfl, hgB, rfl, rfl⟩

/-! ### Counting helpers -/

lemma countMine_append (l1 l2 : List Ev) :
    countMine (l1 ++ l2) = countMine l1 + countMine l2 := by
  simp [countMine, List.filter_append]

lemma countDial_append (l1 l2 : List Ev) :
    countDial (l1 ++ l2) = countDial l1 + countDial l2 := by
  simp [countDial, List.filter_append]

lemma countDial_readFiles (evs : List Ev)
    (h : ∀ e ∈ evs, ∃ p, e = Ev.readFile p) : countDial evs = 0 := by
  simp only [countDial, List.length_eq_zero]
  rw [List.filter_eq_nil]
  intro e he
  obtain ⟨p, rfl⟩ := h e he
  simp [isDial]

lemma countMine_readFiles (evs : List Ev)
    (h : ∀ e ∈ evs, ∃ p, e = Ev.readFile p) : countMine evs = 0 := by
  simp only [countMine, List.length_eq_zero]
  rw [List.filter_eq_nil]
  intro e he
  obtain ⟨p, rfl⟩ := h e he
  simp [isMine]

lemma btc_not_mem_readFiles (evs : List Ev)
    (h : ∀ e ∈ evs, ∃ p, e = Ev.readFile p) :
    Ev.newBitcoinClient ∉ evs := by
  intro hmem
  obtain ⟨p, hp⟩ := h _ hmem
  exact absurd hp (by simp)

lemma getInfo_not_mem_readFiles (evs : List Ev)
    (h : ∀ e ∈ evs, ∃ p, e = Ev.readFile p) (s : String) :
    Ev.getInfo s ∉ evs := by
  intro hmem
  obtain ⟨p, hp⟩ := h _ hmem
  exact absurd hp (by simp)

lemma getTapClientOpts_mac_bad (w : World) (cfg : TapConfig) (creds : Creds)
    (evs : List Ev) (bytes : String)
    (hevs : countDial evs = 0) (hpath : cfg.macPath ≠ "")
    (hread : w.readFile cfg.macPath = some bytes)
    (hbad : w.macUnmarshalOk bytes = false ∨
      (w.macUnmarshalOk bytes = true ∧ w.macCredOk bytes = false)) :
    (∃ e, (getTapClientOpts w cfg creds evs).res = .error e) ∧
    countDial (getTapClientOpts w cfg creds evs).events = 0 := by
  rcases hbad with hu | ⟨hu, hc⟩
  · rw [getTapClientOpts_mac_unmarshal_err w cfg creds evs bytes hpath hread hu]
    exact ⟨⟨_, rfl⟩, by rw [countDial_append, hevs]; simp [countDial, isDial]⟩
  · rw [getTapClientOpts_mac_cred_err w cfg creds evs bytes hpath hread hu hc]
    exact ⟨⟨_, rfl⟩, by rw [countDial_append, hevs]; simp [countDial, isDial]⟩

/-- Claim C5: for every participant configuration whose TLS path is set and
points to a file from which zero valid certificates parse into the pool,
`getTapClient` fails fatally at the certificate-append check, and no dial
attempt occurs in its trace. -/
theorem tls_zero_certs_fatal_before_dial (w : World) (cfg : TapConfig)
    (cert : String) (hpath : cfg.tlsPath ≠ "")
    (hread : w.readFile cfg.tlsPath = some cert)
    (hparse : w.pemAppendOk cert = false) :
    (getTapClient w cfg).res = .error .tlsAppendErr ∧
    countDial (getTapClient w cfg).events = 0 := by
  rw [getTapClient_tls_append_err w cfg cert hpath hread hparse]
  exact ⟨rfl, by simp [countDial, isDial]⟩

/-- Witness for C5 at a concrete world and configuration. -/
theorem tls_zero_certs_fatal_before_dial_witness :
    (getTapClient wBadTLS cfgTLSSet).res = .error .tlsAppendErr ∧
    countDial (getTapClient wBadTLS cfgTLSSet).events = 0 :=
  tls_zero_certs_fatal_before_dial wBadTLS cfgTLSSet "JUNK" (by decide) rfl rfl

/-- Claim C6: for every participant configuration whose macaroon path is set
and points to a file whose bytes do not decode as a macaroon — or whose
decoded macaroon cannot be wrapped into a per-call credential — `getTapClient`
fails fatally, and no dial attempt occurs in its trace. -/
theorem mac_decode_fatal_before_dial (w : World) (cfg : TapConfig)
    (bytes : String) (hpath : cfg.macPath ≠ "")
    (hread : w.readFile cfg.macPath = some bytes)
    (hbad : w.macUnmarshalOk bytes = false ∨
      (w.macUnmarshalOk bytes = true ∧ w.macCredOk bytes = false)) :
    (∃ e, (getTapClient w cfg).res = .error e) ∧
    countDial (getTapClient w cfg).events = 0 := by
  by_cases ht : cfg.tlsPath = ""
  · rw [getTapClient_tls_empty w cfg ht]
    exact getTapClientOpts_mac_bad w cfg _ [] bytes (by simp [countDial])
      hpath hread hbad
  · rcases hr : w.readFile cfg.tlsPath with _ | cert
    · rw [getTapClient_tls_read_err w cfg ht hr]
      exact ⟨⟨_, rfl⟩, by simp [countDial, isDial]⟩
    · cases hp : w.pemAppendOk cert
      · rw [getTapClient_tls_append_err w cfg cert ht hr hp]
        exact ⟨⟨_, rfl⟩, by simp [countDial, isDial]⟩
      · rw [getTapClient_tls_ok w cfg cert ht hr hp]
        exact getTapClientOpts_mac_bad w cfg _ _ bytes
          (by simp [countDial, isDial]) hpath hread hbad

/-- Witness for C6 at a concrete world and configuration. -/
theorem mac_decode_fatal_before_dial_witness :
    (∃ e, (getTapClient wBadMac cfgMacSet).res = .error e) ∧
    countDial (getTapClient wBadMac cfgMacSet).events = 0 :=
  mac_decode_fatal_before_dial wBadMac cfgMacSet "JUNK" (by decide) rfl
    (Or.inl rfl)

/-- Claim C7: with both credential paths empty, the builder uses the default
transport credentials and attaches no per-call credential: the dial is
attempted with exactly the default options, the only possible fatal error is
the dial itself (the credential-loading phase raises none), and on a
successful dial the returned bundle carries the default-trust connection. -/
theorem default_trust_no_per_call_cred (w : World) (cfg : TapConfig)
    (h1 : cfg.tlsPath = "") (h2 : cfg.macPath = "") :
    Ev.dial (tapAddr cfg) defaultOpts ∈ (getTapClient w cfg).events ∧
    (∀ e, (getTapClient w cfg).res = .error e → e = .dialErr) ∧
    (w.dialOk (tapAddr cfg) = true →
      getTapClient w cfg =
        ⟨[.dial (tapAddr cfg) defaultOpts,
          .registerCleanup (.closeConn (defaultConn cfg))],
         [.closeConn (defaultConn cfg)], .ok (defaultClient cfg)⟩) ∧
    (∀ mb, DialOption.withPerRPCCredentials mb ∉ defaultOpts) := by
  rw [getTapClient_tls_empty w cfg h1,
      getTapClientOpts_mac_empty w cfg _ [] h2, dialAndWrap_spec]
  by_cases hd : w.dialOk (tapAddr cfg)
  · simp [hd, defaultOpts, defaultConn, defaultClient, mkConn, mkClient,
          maxMsgRecvSize]
  · simp [hd, defaultOpts, maxMsgRecvSize]

/-- Witness for C7 at a concrete world and configuration. -/
theorem default_trust_no_per_call_cred_witness :
    Ev.dial (tapAddr cfgGood.alice.tapd) defaultOpts ∈
      (getTapClient wGood cfgGood.alice.tapd).events ∧
    (∀ e, (getTapClient wGood cfgGood.alice.tapd).res = .error e →
      e = .dialErr) ∧
    (wGood.dialOk (tapAddr cfgGood.alice.tapd) = true →
      getTapClient wGood cfgGood.alice.tapd =
        ⟨[.dial (tapAddr cfgGood.alice.tapd) defaultOpts,
          .registerCleanup (.closeConn (defaultConn cfgGood.alice.tapd))],
         [.closeConn (defaultConn cfgGood.alice.tapd)],
         .ok (defaultClient cfgGood.alice.tapd)⟩) ∧
    (∀ mb, DialOption.withPerRPCCredentials mb ∉ defaultOpts) :=
  default_trust_no_per_call_cred wGood cfgGood.alice.tapd rfl rfl

lemma dialAndWrap_dial_mem (w : World) (cfg : TapConfig)
    (opts : List DialOption) (evs : List Ev) (addr : String)
    (o : List DialOption)
    (hevs : ∀ e ∈ evs, isDial e = false)
    (h : Ev.dial addr o ∈ (dialAndWrap w cfg opts evs).events) :
    addr = tapAddr cfg ∧ o = opts := by
  rw [dialAndWrap_spec] at h
  by_cases hd : w.dialOk (tapAddr cfg) <;> simp [hd] at h <;>
    rcases h with h | h
  · exact absurd (hevs _ h) (by simp [isDial])
  · exact h
  · exact absurd (hevs _ h) (by simp [isDial])
  · exact h

lemma getTapClientOpts_dial_mem (w : World) (cfg : TapConfig) (creds : Creds)
    (evs : List Ev) (addr : String) (o : List DialOption)
    (hevs : ∀ e ∈ evs, isDial e = false)
    (h : Ev.dial addr o ∈ (getTapClientOpts w cfg creds evs).events) :
    addr = tapAddr cfg ∧
    ∃ tail, o = [.withTransportCredentials creds, maxMsgRecvSize] ++ tail ∧
      ((cfg.macPath = "" ∧ tail = []) ∨
       (cfg.macPath ≠ "" ∧ ∃ mb, tail = [.withPerRPCCredentials mb])) := by
  by_cases hm : cfg.macPath = ""
  · rw [getTapClientOpts_mac_empty w cfg creds evs hm] at h
    obtain ⟨ha, ho⟩ := dialAndWrap_dial_mem w cfg _ evs addr o hevs h
    exact ⟨ha, [], by simp [ho], Or.inl ⟨hm, rfl⟩⟩
  · rcases hr : w.readFile cfg.macPath with _ | bytes
    · rw [getTapClientOpts_mac_read_err w cfg creds evs hm hr] at h
      simp at h
      exact absurd (hevs _ h) (by simp [isDial])
    · cases hu : w.macUnmarshalOk bytes
      · rw [getTapClientOpts_mac_unmarshal_err w cfg creds evs bytes hm hr hu] at h
        simp at h
        exact absurd (hevs _ h) (by simp [isDial])
      · cases hmc : w.macCredOk bytes
        · rw [getTapClientOpts_mac_cred_err w cfg creds evs bytes hm hr hu hmc] at h
          simp at h
          exact absurd (hevs _ h) (by simp [isDial])
        · rw [getTapClientOpts_mac_ok w cfg creds evs bytes hm hr hu hmc] at h
          have hevs2 : ∀ e ∈ evs ++ [Ev.readFile cfg.macPath],
              isDial e = false := by
            intro e he
            rcases List.mem_append.mp he with h1 | h1
            · exact hevs e h1
            · rw [List.mem_singleton.mp h1]
              simp [isDial]
          obtain ⟨ha, ho⟩ := dialAndWrap_dial_mem w cfg _ _ addr o hevs2 h
          exact ⟨ha, [.withPerRPCCredentials bytes], by simp [ho],
            Or.inr ⟨hm, bytes, rfl⟩⟩

/-- Claim C8: every dial the participant builder attempts uses an option list
in the fixed order transport credentials, then the maximum
receive-message-size option, then — exactly when a macaroon path is
configured — the per-call credential; the maximum receive-size option is
present in every such list. -/
theorem dial_options_fixed_order (w : World) (cfg : TapConfig)
    (addr : String) (o : List DialOption)
    (h : Ev.dial addr o ∈ (getTapClient w cfg).events) :
    maxMsgRecvSize ∈ o ∧
    ∃ creds tail,
      o = [.withTransportCredentials creds, maxMsgRecvSize] ++ tail ∧
      ((cfg.macPath = "" ∧ tail = []) ∨
       (cfg.macPath ≠ "" ∧ ∃ mb, tail = [.withPerRPCCredentials mb])) := by
  have main : ∃ creds tail,
      o = [.withTransportCredentials creds, maxMsgRecvSize] ++ tail ∧
      ((cfg.macPath = "" ∧ tail = []) ∨
       (cfg.macPath ≠ "" ∧ ∃ mb, tail = [.withPerRPCCredentials mb])) := by
    by_cases ht : cfg.tlsPath = ""
    · rw [getTapClient_tls_empty w cfg ht] at h
      obtain ⟨-, tail, ho, htail⟩ :=
        getTapClientOpts_dial_mem w cfg _ [] addr o (by simp) h
      exact ⟨_, tail, ho, htail⟩
    · rcases hr : w.readFile cfg.tlsPath with _ | cert
      · rw [getTapClient_tls_read_err w cfg ht hr] at h
        simp at h
      · cases hp : w.pemAppendOk cert
        · rw [getTapClient_tls_append_err w cfg cert ht hr hp] at h
          simp at h
        · rw [getTapClient_tls_ok w cfg cert ht hr hp] at h
          obtain ⟨-, tail, ho, htail⟩ :=
            getTapClientOpts_dial_mem w cfg _ _ addr o
              (by intro e he; simp at he; subst he; simp [isDial]) h
          exact ⟨_, tail, ho, htail⟩
  obtain ⟨creds, tail, ho, htail⟩ := main
  exact ⟨by simp [ho], creds, tail, ho, htail⟩

/-- Witness for C8 at a concrete world and configuration. -/
theorem dial_options_fixed_order_witness :
    maxMsgRecvSize ∈ defaultOpts ∧
    ∃ creds tail,
      defaultOpts = [.withTransportCredentials creds, maxMsgRecvSize] ++ tail ∧
      ((cfgGood.alice.tapd.macPath = "" ∧ tail = []) ∨
       (cfgGood.alice.tapd.macPath ≠ "" ∧
        ∃ mb, tail = [.withPerRPCCredentials mb])) :=
  dial_options_fixed_order wGood cfgGood.alice.tapd
    (tapAddr cfgGood.alice.tapd) defaultOpts (by decide)

/-- Claim C9: in the chain-node connector, TLS is disabled exactly when the
TLS path is empty — an empty path yields a connection config with TLS
disabled and no certificate bytes (no default-trust fallback), a configured
path has its bytes read (fatally on read error) and attached with TLS
enabled. -/
theorem bitcoin_tls_disabled_iff_no_path (w : World) (cfg : BitcoinConfig) :
    (∀ c, (getBitcoinConn w cfg).res = .ok c →
       (c.connCfg.disableTLS = true ↔ cfg.tlsPath = "") ∧
       (cfg.tlsPath = "" → c.connCfg.certificates = none) ∧
       (∀ cert, cfg.tlsPath ≠ "" → w.readFile cfg.tlsPath = some cert →
          c.connCfg.certificates = some cert) ∧
       c.connCfg.httpPostMode = true) ∧
    (cfg.tlsPath ≠ "" → w.readFile cfg.tlsPath = none →
       (getBitcoinConn w cfg).res = .error .btcTlsReadErr) := by
  constructor
  · intro c hc
    by_cases h1 : cfg.tlsPath = ""
    · rw [getBitcoinConn_noTLS w cfg h1] at hc
      cases hw : w.rpcNewOk
      · simp [hw] at hc
      · simp only [hw, if_true] at hc
        simp only [Except.ok.injEq] at hc
        subst hc
        simp [h1]
    · rcases hr : w.readFile cfg.tlsPath with _ | cert
      · rw [getBitcoinConn_tls_read_err w cfg h1 hr] at hc
        simp at hc
      · rw [getBitcoinConn_tls_ok w cfg cert h1 hr] at hc
        cases hw : w.rpcNewOk
        · simp [hw] at hc
        · simp only [hw, if_true] at hc
          simp only [Except.ok.injEq] at hc
          subst hc
          refine ⟨by simp [h1], fun h => absurd h h1, ?_, rfl⟩
          intro cert2 _ hr2
          have hcc : cert = cert2 := Option.some.inj hr2
          subst hcc
          rfl
  · intro h1 hr
    rw [getBitcoinConn_tls_read_err w cfg h1 hr]

/-- Witness for C9 at concrete worlds and configurations: the read-error case
aborts fatally, and the empty-path case yields a TLS-disabled config. -/
theorem bitcoin_tls_disabled_iff_no_path_witness :
    (getBitcoinConn wNoFile cfgBtcTLS).res = .error .btcTlsReadErr ∧
    ((⟨⟨btcAddr cfgGood.bitcoin, "u", "p", true, true, none⟩⟩ :
        BtcClient).connCfg.disableTLS = true ↔
      cfgGood.bitcoin.tlsPath = "") :=
  ⟨(bitcoin_tls_disabled_iff_no_path wNoFile cfgBtcTLS).2 (by decide) rfl,
   ((bitcoin_tls_disabled_iff_no_path wGood cfgGood.bitcoin).1 _ rfl).1⟩

/-- Claim C3: if participant-A's liveness probe fails, the orchestrator aborts
fatally there — a single dial occurred, no block was mined, the chain client
was never constructed, and only participant-A's close cleanup is registered. -/
theorem alice_probe_failure_aborts (w : World) (cfg : Config) (a : rpcClient)
    (hA : (getTapClient w cfg.alice.tapd).res = .ok a)
    (hprobe : w.getInfoOk a.taprootAssetsClient.conn.addr = false) :
    (initClients w cfg).res = .error .getInfoErr ∧
    countDial (initClients w cfg).events = 1 ∧
    countMine (initClients w cfg).events = 0 ∧
    Ev.newBitcoinClient ∉ (initClients w cfg).events ∧
    (initClients w cfg).cleanups = [.closeConn a.taprootAssetsClient.conn] := by
  obtain ⟨pre, opts, hpre, hceq, heq⟩ := getTapClient_ok_spec w cfg.alice.tapd a hA
  rw [initClients_alice_probe_fail w cfg a hA hprobe]
  refine ⟨rfl, ?_, ?_, ?_, ?_⟩
  · simp only [heq]
    rw [countDial_append, countDial_append, countDial_readFiles pre hpre]
    simp [countDial, isDial]
  · simp only [heq]
    rw [countMine_append, countMine_append, countMine_readFiles pre hpre]
    simp [countMine, isMine]
  · simp only [heq]
    intro hmem
    rcases List.mem_append.mp hmem with h1 | h1
    · rcases List.mem_append.mp h1 with h2 | h2
      · exact btc_not_mem_readFiles pre hpre h2
      · simp at h2
    · simp at h1
  · simp only [heq]
    subst hceq
    simp [mkClient, mkConn]

/-- Witness for C3 at a concrete world and configuration. -/
theorem alice_probe_failure_aborts_witness :
    (initClients wProbeFail cfgGood).res = .error .getInfoErr ∧
    countDial (initClients wProbeFail cfgGood).events = 1 ∧
    countMine (initClients wProbeFail cfgGood).events = 0 ∧
    Ev.newBitcoinClient ∉ (initClients wProbeFail cfgGood).events ∧
    (initClients wProbeFail cfgGood).cleanups =
      [.closeConn (defaultClient cfgGood.alice.tapd).taprootAssetsClient.conn] :=
  alice_probe_failure_aborts wProbeFail cfgGood
    (defaultClient cfgGood.alice.tapd) rfl rfl

/-- Claim C4: on a fully successful run the orchestrator's trace decomposes as
participant-A's complete setup (which contains its dial), then A's liveness
probe, then participant-B's complete setup (with its dial), then B's probe,
then the chain-node construction, then the setup mine and the registration of
the mining cleanup — a strictly sequential fixed order. -/
theorem initClients_sequential_order (w : World) (cfg : Config)
    (a b : rpcClient) (btc : BtcClient)
    (hA : (getTapClient w cfg.alice.tapd).res = .ok a)
    (hgA : w.getInfoOk a.taprootAssetsClient.conn.addr = true)
    (hB : (getTapClient w cfg.bob.tapd).res = .ok b)
    (hgB : w.getInfoOk b.taprootAssetsClient.conn.addr = true)
    (hC : (getBitcoinConn w cfg.bitcoin).res = .ok btc)
    (hm : w.mineOk = true) :
    (initClients w cfg).events =
      (getTapClient w cfg.alice.tapd).events
        ++ [Ev.getInfo a.taprootAssetsClient.conn.addr]
        ++ (getTapClient w cfg.bob.tapd).events
        ++ [Ev.getInfo b.taprootAssetsClient.conn.addr]
        ++ (getBitcoinConn w cfg.bitcoin).events
        ++ [Ev.mine, Ev.registerCleanup .mineBlock] ∧
    Ev.dial (tapAddr cfg.alice.tapd) a.taprootAssetsClient.conn.opts ∈
      (getTapClient w cfg.alice.tapd).events ∧
    Ev.dial (tapAddr cfg.bob.tapd) b.taprootAssetsClient.conn.opts ∈
      (getTapClient w cfg.bob.tapd).events := by
  obtain ⟨preA, optsA, hpreA, hceqA, heqA⟩ :=
    getTapClient_ok_spec w cfg.alice.tapd a hA
  obtain ⟨preB, optsB, hpreB, hceqB, heqB⟩ :=
    getTapClient_ok_spec w cfg.bob.tapd b hB
  refine ⟨?_, ?_, ?_⟩
  · rw [initClients_ok w cfg a b btc hA hgA hB hgB hC hm]
  · subst hceqA
    simp only [heqA]
    simp [mkClient, mkConn]
  · subst hceqB
    simp only [heqB]
    simp [mkClient, mkConn]

/-- Witness for C4 at a concrete world and configuration. -/
theorem initClients_sequential_order_witness :
    (initClients wGood cfgGood).events =
      (getTapClient wGood cfgGood.alice.tapd).events
        ++ [Ev.getInfo
              (defaultClient cfgGood.alice.tapd).taprootAssetsClient.conn.addr]
        ++ (getTapClient wGood cfgGood.bob.tapd).events
        ++ [Ev.getInfo
              (defaultClient cfgGood.bob.tapd).taprootAssetsClient.conn.addr]
        ++ (getBitcoinConn wGood cfgGood.bitcoin).events
        ++ [Ev.mine, Ev.registerCleanup .mineBlock] ∧
    Ev.dial (tapAddr cfgGood.alice.tapd)
        (defaultClient cfgGood.alice.tapd).taprootAssetsClient.conn.opts ∈
      (getTapClient wGood cfgGood.alice.tapd).events ∧
    Ev.dial (tapAddr cfgGood.bob.tapd)
        (defaultClient cfgGood.bob.tapd).taprootAssetsClient.conn.opts ∈
      (getTapClient wGood cfgGood.bob.tapd).events :=
  initClients_sequential_order wGood cfgGood
    (defaultClient cfgGood.alice.tapd) (defaultClient cfgGood.bob.tapd)
    btcGood rfl rfl rfl rfl rfl rfl

lemma initClients_alice_first (w : World) (cfg : Config) (a : rpcClient)
    (hA : (getTapClient w cfg.alice.tapd).res = .ok a) :
    ∃ rest crest,
      (initClients w cfg).events =
        (getTapClient w cfg.alice.tapd).events ++ rest ∧
      (initClients w cfg).cleanups =
        (getTapClient w cfg.alice.tapd).cleanups ++ crest := by
  cases hgA : w.getInfoOk a.taprootAssetsClient.conn.addr
  · rw [initClients_alice_probe_fail w cfg a hA hgA]
    exact ⟨[.getInfo a.taprootAssetsClient.conn.addr], [], rfl, by simp⟩
  · rcases hB : (getTapClient w cfg.bob.tapd).res with e | b
    · rw [initClients_bob_err w cfg a e hA hgA hB]
      exact ⟨[.getInfo a.taprootAssetsClient.conn.addr]
          ++ (getTapClient w cfg.bob.tapd).events,
        (getTapClient w cfg.bob.tapd).cleanups, by simp, rfl⟩
    · cases hgB : w.getInfoOk b.taprootAssetsClient.conn.addr
      · rw [initClients_bob_probe_fail w cfg a b hA hgA hB hgB]
        exact ⟨[.getInfo a.taprootAssetsClient.conn.addr]
            ++ (getTapClient w cfg.bob.tapd).events
            ++ [.getInfo b.taprootAssetsClient.conn.addr],
          (getTapClient w cfg.bob.tapd).cleanups, by simp, rfl⟩
      · rcases hC : (getBitcoinConn w cfg.bitcoin).res with e | btc
        · rw [initClients_btc_err w cfg a b e hA hgA hB hgB hC]
          exact ⟨[.getInfo a.taprootAssetsClient.conn.addr]
              ++ (getTapClient w cfg.bob.tapd).events
              ++ [.getInfo b.taprootAssetsClient.conn.addr]
              ++ (getBitcoinConn w cfg.bitcoin).events,
            (getTapClient w cfg.bob.tapd).cleanups
              ++ (getBitcoinConn w cfg.bitcoin).cleanups, by simp, by simp⟩
        · cases hm : w.mineOk
          · rw [initClients_mine_fail w cfg a b btc hA hgA hB hgB hC hm]
            exact ⟨[.getInfo a.taprootAssetsClient.conn.addr]
                ++ (getTapClient w cfg.bob.tapd).events
                ++ [.getInfo b.taprootAssetsClient.conn.addr]
                ++ (getBitcoinConn w cfg.bitcoin).events ++ [.mine],
              (getTapClient w cfg.bob.tapd).cleanups
                ++ (getBitcoinConn w cfg.bitcoin).cleanups, by simp, by simp⟩
          · rw [initClients_ok w cfg a b btc hA hgA hB hgB hC hm]
            exact ⟨[.getInfo a.taprootAssetsClient.conn.addr]
                ++ (getTapClient w cfg.bob.tapd).events
                ++ [.getInfo b.taprootAssetsClient.conn.addr]
                ++ (getBitcoinConn w cfg.bitcoin).events
                ++ [.mine, .registerCleanup .mineBlock],
              (getTapClient w cfg.bob.tapd).cleanups
                ++ (getBitcoinConn w cfg.bitcoin).cleanups ++ [.mineBlock],
              by simp, by simp⟩

lemma initClients_bob_cleanups (w : World) (cfg : Config) (a b : rpcClient)
    (hA : (getTapClient w cfg.alice.tapd).res = .ok a)
    (hgA : w.getInfoOk a.taprootAssetsClient.conn.addr = true)
    (hB : (getTapClient w cfg.bob.tapd).res = .ok b) :
    ∃ crest,
      (initClients w cfg).cleanups =
        (getTapClient w cfg.alice.tapd).cleanups
          ++ (getTapClient w cfg.bob.tapd).cleanups ++ crest := by
  cases hgB : w.getInfoOk b.taprootAssetsClient.conn.addr
  · rw [initClients_bob_probe_fail w cfg a b hA hgA hB hgB]
    exact ⟨[], by simp⟩
  · rcases hC : (getBitcoinConn w cfg.bitcoin).res with e | btc
    · rw [initClients_btc_err w cfg a b e hA hgA hB hgB hC]
      exact ⟨(getBitcoinConn w cfg.bitcoin).cleanups, by simp⟩
    · cases hm : w.mineOk
      · rw [initClients_mine_fail w cfg a b btc hA hgA hB hgB hC hm]
        exact ⟨(getBitcoinConn w cfg.bitcoin).cleanups, by simp⟩
      · rw [initClients_ok w cfg a b btc hA hgA hB hgB hC hm]
        exact ⟨(getBitcoinConn w cfg.bitcoin).cleanups ++ [.mineBlock],
          by simp⟩

/-- Claim C10: whenever a participant channel was successfully dialed, its
close cleanup was registered inside `getTapClient` — in the full trace the
registration event for participant-A's close precedes every liveness-probe
event, the close cleanup is in the registered-cleanup list on every outcome
(including a fatal abort at the probe), and likewise participant-B's close
cleanup is registered whenever B's build succeeded. -/
theorem close_cleanup_registered_before_probe (w : World) (cfg : Config)
    (a : rpcClient)
    (hA : (getTapClient w cfg.alice.tapd).res = .ok a) :
    (∃ l₁ l₂, (initClients w cfg).events =
        l₁ ++ Ev.registerCleanup (.closeConn a.taprootAssetsClient.conn) :: l₂ ∧
        ∀ s, Ev.getInfo s ∉ l₁) ∧
    Cleanup.closeConn a.taprootAssetsClient.conn ∈
      (initClients w cfg).cleanups ∧
    (∀ b, w.getInfoOk a.taprootAssetsClient.conn.addr = true →
        (getTapClient w cfg.bob.tapd).res = .ok b →
        Cleanup.closeConn b.taprootAssetsClient.conn ∈
          (initClients w cfg).cleanups) := by
  obtain ⟨pre, opts, hpre, hceq, heq⟩ :=
    getTapClient_ok_spec w cfg.alice.tapd a hA
  obtain ⟨rest, crest, hev, hcl⟩ := initClients_alice_first w cfg a hA
  refine ⟨⟨pre ++ [Ev.dial (tapAddr cfg.alice.tapd) opts], rest, ?_, ?_⟩,
    ?_, ?_⟩
  · rw [hev]
    simp only [heq]
    subst hceq
    simp [mkClient, mkConn]
  · intro s hmem
    rcases List.mem_append.mp hmem with h1 | h1
    · exact getInfo_not_mem_readFiles pre hpre s h1
    · simp at h1
  · rw [hcl]
    simp only [heq]
    subst hceq
    simp [mkClient, mkConn]
  · intro b hgA hB
    obtain ⟨preB, optsB, hpreB, hceqB, heqB⟩ :=
      getTapClient_ok_spec w cfg.bob.tapd b hB
    obtain ⟨crest2, hcl2⟩ := initClients_bob_cleanups w cfg a b hA hgA hB
    rw [hcl2]
    simp only [heqB]
    subst hceqB
    simp [mkClient, mkConn]

/-- Witness for C10 at a concrete world (whose probes fail) and configuration. -/
theorem close_cleanup_registered_before_probe_witness :
    (∃ l₁ l₂, (initClients wProbeFail cfgGood).events =
        l₁ ++ Ev.registerCleanup
          (.closeConn (defaultClient
            cfgGood.alice.tapd).taprootAssetsClient.conn) :: l₂ ∧
        ∀ s, Ev.getInfo s ∉ l₁) ∧
    Cleanup.closeConn
        (defaultClient cfgGood.alice.tapd).taprootAssetsClient.conn ∈
      (initClients wProbeFail cfgGood).cleanups ∧
    (∀ b, wProbeFail.getInfoOk
        (defaultClient cfgGood.alice.tapd).taprootAssetsClient.conn.addr
          = true →
        (getTapClient wProbeFail cfgGood.bob.tapd).res = .ok b →
        Cleanup.closeConn b.taprootAssetsClient.conn ∈
          (initClients wProbeFail cfgGood).cleanups) :=
  close_cleanup_registered_before_probe wProbeFail cfgGood
    (defaultClient cfgGood.alice.tapd) rfl

/-- Claim C1 counterexample: in a fully successful concrete run, the cleanups
registered are exactly the two participant channel closes (registered inside
`getTapClient`) and the mining cleanup (the only cleanup `initClients` itself
registers); running the mining cleanup emits only a mining action and closes
nothing, and no cleanup event of the whole teardown closes anything but the
two participant channels — so the orchestrator's post-test cleanup does not
close the connection handles it created, and no registered teardown closes
the chain-node connection. -/
theorem initClients_cleanup_only_mines_cex :
    (initClients wGood cfgGood).cleanups =
      [.closeConn (defaultConn cfgGood.alice.tapd),
       .closeConn (defaultConn cfgGood.bob.tapd), .mineBlock] ∧
    cleanupEvents Cleanup.mineBlock = [Ev.mine] ∧
    (∀ e ∈ cleanupEvents Cleanup.mineBlock, isCloseEv e = false) ∧
    (∀ e ∈ runCleanups (initClients wGood cfgGood).cleanups,
       isCloseEv e = true →
         e = Ev.closeConn (tapAddr cfgGood.alice.tapd) ∨
         e = Ev.closeConn (tapAddr cfgGood.bob.tapd)) := by
  decide

/-- Claim C1 (amended): on every successful run, each participant bundle's
channel-close cleanup is registered (by `getTapClient`, during that
participant's setup), and the orchestrator itself registers exactly one
further post-test cleanup, which only repeats the mining action and does not
close any connection; no cleanup closing the chain-node connection is
registered. -/
theorem initClients_registered_cleanups (w : World) (cfg : Config)
    (a b : rpcClient) (btc : BtcClient)
    (h : (initClients w cfg).res = .ok (a, b, btc)) :
    (initClients w cfg).cleanups =
      [.closeConn a.taprootAssetsClient.conn,
       .closeConn b.taprootAssetsClient.conn, .mineBlock] ∧
    cleanupEvents Cleanup.mineBlock = [Ev.mine] ∧
    (∀ e ∈ cleanupEvents Cleanup.mineBlock, isCloseEv e = false) := by
  obtain ⟨hA, hgA, hB, hgB, hC, hm⟩ := initClients_res_ok_inv w cfg a b btc h
  obtain ⟨preA, optsA, hpreA, hceqA, heqA⟩ :=
    getTapClient_ok_spec w cfg.alice.tapd a hA
  obtain ⟨preB, optsB, hpreB, hceqB, heqB⟩ :=
    getTapClient_ok_spec w cfg.bob.tapd b hB
  refine ⟨?_, rfl, by decide⟩
  rw [initClients_ok w cfg a b btc hA hgA hB hgB hC hm]
  simp only [heqA, heqB, getBitcoinConn_cleanups]
  subst hceqA
  subst hceqB
  simp [mkClient, mkConn]

/-- Witness for the amended C1 at a concrete world and configuration. -/
theorem initClients_registered_cleanups_witness :
    (initClients wGood cfgGood).cleanups =
      [.closeConn (defaultClient cfgGood.alice.tapd).taprootAssetsClient.conn,
       .closeConn (defaultClient cfgGood.bob.tapd).taprootAssetsClient.conn,
       .mineBlock] ∧
    cleanupEvents Cleanup.mineBlock = [Ev.mine] ∧
    (∀ e ∈ cleanupEvents Cleanup.mineBlock, isCloseEv e = false) :=
  initClients_registered_cleanups wGood cfgGood
    (defaultClient cfgGood.alice.tapd) (defaultClient cfgGood.bob.tapd)
    btcGood rfl

/-- Claim C2: with two valid default-trust participants and a reachable
TLS-disabled chain backend, the orchestrator succeeds and returns the three
handles, and exactly two block-mining actions occur over the fixture's full
lifecycle — one during setup, immediately after the chain-node connection is
built, and one when the registered teardown runs. -/
theorem initClients_two_mining_actions (w : World) (cfg : Config)
    (h1 : cfg.alice.tapd.tlsPath = "") (h2 : cfg.alice.tapd.macPath = "")
    (h3 : cfg.bob.tapd.tlsPath = "") (h4 : cfg.bob.tapd.macPath = "")
    (h5 : cfg.bitcoin.tlsPath = "")
    (hdA : w.dialOk (tapAddr cfg.alice.tapd) = true)
    (hdB : w.dialOk (tapAddr cfg.bob.tapd) = true)
    (hgA : w.getInfoOk (tapAddr cfg.alice.tapd) = true)
    (hgB : w.getInfoOk (tapAddr cfg.bob.tapd) = true)
    (hrpc : w.rpcNewOk = true) (hm : w.mineOk = true) :
    (initClients w cfg).res =
      .ok (defaultClient cfg.alice.tapd, defaultClient cfg.bob.tapd,
           ⟨⟨btcAddr cfg.bitcoin, cfg.bitcoin.user, cfg.bitcoin.password,
             true, true, none⟩⟩) ∧
    countMine (initClients w cfg).events = 1 ∧
    countMine (runCleanups (initClients w cfg).cleanups) = 1 ∧
    countMine (fullLifecycleEvents w cfg) = 2 ∧
    (∃ l, (initClients w cfg).events =
       l ++ [Ev.newBitcoinClient, Ev.mine, Ev.registerCleanup .mineBlock]) := by
  have hA := getTapClient_default_trust w cfg.alice.tapd h1 h2 hdA
  have hB := getTapClient_default_trust w cfg.bob.tapd h3 h4 hdB
  have hC := getBitcoinConn_noTLS w cfg.bitcoin h5
  have hok := initClients_ok w cfg (defaultClient cfg.alice.tapd)
    (defaultClient cfg.bob.tapd)
    ⟨⟨btcAddr cfg.bitcoin, cfg.bitcoin.user, cfg.bitcoin.password,
      true, true, none⟩⟩
    (by rw [hA]) (hgA) (by rw [hB]) (hgB) (by rw [hC]; simp [hrpc]) hm
  refine ⟨?_, ?_, ?_, ?_, ?_⟩
  · rw [hok]
  · rw [hok]
    simp only [hA, hB, hC]
    simp [countMine_append, countMine, isMine,
          defaultConn, defaultOpts, mkConn]
  · rw [hok]
    simp only [hA, hB, hC]
    simp [runCleanups, cleanupEvents, countMine, isMine]
  · rw [fullLifecycleEvents, countMine_append, hok]
    simp only [hA, hB, hC]
    simp [countMine_append, countMine, isMine, runCleanups, cleanupEvents]
  · rw [hok]
    simp only [hA, hB, hC]
    refine ⟨[.dial (tapAddr cfg.alice.tapd) defaultOpts,
      .registerCleanup (.closeConn (defaultConn cfg.alice.tapd)),
      .getInfo (defaultClient cfg.alice.tapd).taprootAssetsClient.conn.addr,
      .dial (tapAddr cfg.bob.tapd) defaultOpts,
      .registerCleanup (.closeConn (defaultConn cfg.bob.tapd)),
      .getInfo (defaultClient cfg.bob.tapd).taprootAssetsClient.conn.addr],
      ?_⟩
    simp

/-- Witness for C2 at a concrete world and configuration. -/
theorem initClients_two_mining_actions_witness :
    (initClients wGood cfgGood).res =
      .ok (defaultClient cfgGood.alice.tapd, defaultClient cfgGood.bob.tapd,
           ⟨⟨btcAddr cfgGood.bitcoin, cfgGood.bitcoin.user,
             cfgGood.bitcoin.password, true, true, none⟩⟩) ∧
    countMine (initClients wGood cfgGood).events = 1 ∧
    countMine (runCleanups (initClients wGood cfgGood).cleanups) = 1 ∧
    countMine (fullLifecycleEvents wGood cfgGood) = 2 ∧
    (∃ l, (initClients wGood cfgGood).events =
       l ++ [Ev.newBitcoinClient, Ev.mine, Ev.registerCleanup .mineBlock]) :=
  initClients_two_mining_actions wGood cfgGood rfl rfl rfl rfl rfl
    rfl rfl rfl rfl rfl rfl
